import Mathlib

/-!
Verification of the security core of `astro-build-time-constants`:
the secret scanner, the JWT token verifier, and the security gate
(`src/security.ts`, re-exported types in `src/types.ts`).

The JavaScript code is shallowly embedded:
* JS strings are Lean `String`s; `process.env` is a function
  `String → Option String`; `console.warn` output is collected in a list.
* Thrown `Error`s become `Except` errors; the exact thrown message is
  recovered by a `message` rendering function on the structured error type.
* The external Node primitives `crypto.createHmac(..).digest()` and
  `JSON.parse` are parameters of the model (the `JsExt` structure); the
  repository's own `base64UrlDecode` wrapper is embedded concretely,
  modelling `Buffer.from(s, 'base64')` as the standard lenient base64
  decoder that skips characters outside the alphabet (including the `=`
  padding) and discards trailing bits that do not fill a byte.
-/

/-! ## JS string helpers -/

/-- JS truthiness of a `string | undefined` value: `undefined` and the
empty string are falsy, every other string is truthy. -/
def jsTruthyOptStr : Option String → Bool
  | none => false
  | some s => s ≠ ""

/-- JS `String.prototype.toLowerCase`, character by character (the
source only ever lowercases configuration keys and paths). -/
def jsToLowerCase (s : String) : String :=
  String.mk (s.data.map Char.toLower)

/-- Does `pat` occur as a contiguous run inside the character list? -/
def listContainsInfix (pat : List Char) : List Char → Bool
  | [] => pat.isEmpty
  | c :: rest => pat.isPrefixOf (c :: rest) || listContainsInfix pat rest

/-- Substring containment test, modelling JS `String.prototype.includes`
(used in the source only with plain blocklist keywords as needles). -/
def strContainsSubstr (s pat : String) : Bool :=
  listContainsInfix pat.data s.data

/-- Split a character list at every `'.'`, keeping empty segments,
modelling JS `String.prototype.split('.')`. -/
def splitOnDotAux : List Char → List (List Char)
  | [] => [[]]
  | c :: rest =>
    if c = '.' then [] :: splitOnDotAux rest
    else
      match splitOnDotAux rest with
      | [] => [[c]]
      | seg :: segs => (c :: seg) :: segs

/-- JS `token.split('.')`. -/
def jsSplitDot (s : String) : List String :=
  (splitOnDotAux s.data).map String.mk

/-! ## Base64 / base64url decoding (`base64UrlDecode`) -/

/-- The 6-bit value of a standard-base64 alphabet character, `none` for
characters outside the alphabet (those are skipped by Node's decoder). -/
def base64CharValue (c : Char) : Option Nat :=
  if 'A' ≤ c ∧ c ≤ 'Z' then some (c.toNat - 65)
  else if 'a' ≤ c ∧ c ≤ 'z' then some (c.toNat - 97 + 26)
  else if '0' ≤ c ∧ c ≤ '9' then some (c.toNat - 48 + 52)
  else if c = '+' then some 62
  else if c = '/' then some 63
  else none

/-- Reassemble a stream of 6-bit groups into bytes (most significant bit
first); trailing bits that do not complete a byte are discarded, as in
base64 decoding. `acc` holds `nbits` pending bits. -/
def sextetsToBytes : List Nat → Nat → Nat → List Nat
  | [], _, _ => []
  | v :: rest, acc, nbits =>
    let acc2 := acc * 64 + v
    let nbits2 := nbits + 6
    if 8 ≤ nbits2 then
      (acc2 / 2 ^ (nbits2 - 8)) :: sextetsToBytes rest (acc2 % 2 ^ (nbits2 - 8)) (nbits2 - 8)
    else
      sextetsToBytes rest acc2 nbits2

/-- `base64UrlDecode` from the source: map `-`/`_` to `+`/`/`, pad with
`=` to a multiple of four, and decode as base64 (the padding characters
are outside the alphabet and are skipped). Returns the byte list of the
resulting `Buffer`. -/
def base64UrlDecode (value : String) : List Nat :=
  let normalized := value.data.map (fun c => if c = '-' then '+' else if c = '_' then '/' else c)
  let padded := normalized ++ List.replicate ((4 - normalized.length % 4) % 4) '='
  sextetsToBytes (padded.filterMap base64CharValue) 0 0

/-! ## Configuration values and the secret scanner -/

mutual
/-- A JavaScript value reaching `scanConfigForSecurityViolations`:
`null`, primitives, a `Date`, a non-plain object exposing `toJSON`
(serializable leaf), a plain object (ordered own entries), an array, or
any other value (function, `undefined`, symbol, ... — a non-serializable
leaf). -/
inductive ConfigValue where
  | null : ConfigValue
  | bool (b : Bool) : ConfigValue
  | num (n : Int) : ConfigValue
  | str (s : String) : ConfigValue
  | date (ms : Int) : ConfigValue
  | withToJSON : ConfigValue
  | other : ConfigValue
  | obj (entries : ConfigEntries) : ConfigValue
  | arr (items : ConfigItems) : ConfigValue

/-- The ordered own entries of a plain object. -/
inductive ConfigEntries where
  | nil : ConfigEntries
  | cons (key : String) (value : ConfigValue) (rest : ConfigEntries) : ConfigEntries

/-- The elements of an array. -/
inductive ConfigItems where
  | nil : ConfigItems
  | cons (value : ConfigValue) (rest : ConfigItems) : ConfigItems
end

/-- `SecretValidationMode` from `types.ts`. -/
inductive SecretValidationMode where
  | warn : SecretValidationMode
  | error : SecretValidationMode
deriving DecidableEq

/-- `SecretValidationOptions` from `types.ts` (all fields optional). -/
structure SecretValidationOptions where
  blocklist : Option (List String) := none
  allowList : Option (List String) := none
  mode : Option SecretValidationMode := none

/-- The internal, normalized `SecretScanOptions`. The source keeps
`allowList` in a JS `Set`; membership is string equality, so a list with
`contains` is an equivalent model. -/
structure SecretScanOptions where
  blocklist : List String
  allowList : List String
  mode : SecretValidationMode

/-- `DEFAULT_SECRET_BLOCKLIST`. -/
def DEFAULT_SECRET_BLOCKLIST : List String :=
  ["secret", "password", "token", "credential", "passphrase", "privatekey", "apikey"]

/-- `PROHIBITED_PROPERTY_NAMES`. -/
def PROHIBITED_PROPERTY_NAMES : List String :=
  ["__proto__", "prototype", "constructor"]

/-- First-occurrence deduplication, modelling `Array.from(new Set(l))`
(a JS `Set` keeps insertion order). -/
def jsSetDedup (l : List String) : List String :=
  l.foldl (fun acc x => if acc.contains x then acc else acc ++ [x]) []

/-- `normalizeSecretOptions`. -/
def normalizeSecretOptions (secrets : Option SecretValidationOptions) : SecretScanOptions :=
  let extras := ((secrets.map (fun s => s.blocklist.getD [])).getD []).map jsToLowerCase
  let mergedBlocklist := jsSetDedup (DEFAULT_SECRET_BLOCKLIST ++ extras)
  let allowList := ((secrets.map (fun s => s.allowList.getD [])).getD []).map jsToLowerCase
  let mode := (secrets.map (fun s => s.mode.getD .error)).getD .error
  { blocklist := mergedBlocklist, allowList := allowList, mode := mode }

/-- A violation thrown by the scanner, with the data interpolated into
the thrown `Error` message. -/
inductive ScanError where
  | unsafePropertyName (target : String) : ScanError
  | blockedKeyword (path : String) (keyword : String) : ScanError
  | unsupportedValue (path : String) : ScanError
deriving DecidableEq

/-- The exact message of the `Error` thrown for a scanner violation. -/
def ScanError.message : ScanError → String
  | .unsafePropertyName target =>
      "Unsafe configuration property name \"" ++ target ++ "\" is blocked to prevent prototype pollution."
  | .blockedKeyword path keyword =>
      "Config property \"" ++ path ++ "\" matched blocked keyword \"" ++ keyword ++
        "\". If this property intentionally carries a secret, list it under security.secrets.allowList."
  | .unsupportedValue path =>
      "Unsupported value at \"" ++ path ++ "\". Only JSON-serializable values are allowed in buildTimeConstants configuration."

/-- The source's path extension `path ? path + "." + key : key` (used
both for the unsafe-name violation target and for the next scan path). -/
def childPath (path key : String) : String :=
  if path ≠ "" then path ++ "." ++ key else key

/-- `ensureSafePropertyName`: `some` violation when the raw key is a
prohibited property name. -/
def ensureSafePropertyName (key : String) (path : String) : Option ScanError :=
  if PROHIBITED_PROPERTY_NAMES.contains key then
    some (.unsafePropertyName (childPath path key))
  else none

/-- `enforceSecretPolicy`: `.error` for a throw, `.ok msgs` with the
`console.warn` output otherwise. -/
def enforceSecretPolicy (key : String) (path : String) (options : SecretScanOptions) :
    Except ScanError (List String) :=
  let normalizedKey := jsToLowerCase key
  match options.blocklist.find? (fun blockedKey => strContainsSubstr normalizedKey blockedKey) with
  | none => .ok []
  | some blocked =>
    if options.allowList.contains (jsToLowerCase path) then .ok []
    else if options.mode = .warn then .ok [(ScanError.blockedKeyword path blocked).message]
    else .error (.blockedKeyword path blocked)

/-- `isSerializableLeaf`. -/
def isSerializableLeaf : ConfigValue → Bool
  | .null => true
  | .str _ => true
  | .num _ => true
  | .bool _ => true
  | .date _ => true
  | .withToJSON => true
  | _ => false

mutual
/-- `scanConfigForSecurityViolations`: depth-first traversal; `.error`
for the first throw, `.ok msgs` with the accumulated `console.warn`
messages otherwise. Arrays are visited index by index; plain-object
entries are checked (`ensureSafePropertyName`, then `enforceSecretPolicy`
at the extended path) before descending. -/
def scanConfigForSecurityViolations (value : ConfigValue) (options : SecretScanOptions)
    (currentPath : String) : Except ScanError (List String) :=
  match value with
  | .arr items => scanArrayItems items options currentPath 0
  | .obj entries => scanObjectEntries entries options currentPath
  | leaf =>
    if isSerializableLeaf leaf then .ok []
    else .error (.unsupportedValue currentPath)
termination_by structural value

/-- The `value.forEach` loop over array elements, threading the index. -/
def scanArrayItems (items : ConfigItems) (options : SecretScanOptions)
    (currentPath : String) (index : Nat) : Except ScanError (List String) :=
  match items with
  | .nil => .ok []
  | .cons item rest =>
    match scanConfigForSecurityViolations item options (currentPath ++ "[" ++ toString index ++ "]") with
    | .error e => .error e
    | .ok w1 =>
      match scanArrayItems rest options currentPath (index + 1) with
      | .error e => .error e
      | .ok w2 => .ok (w1 ++ w2)
termination_by structural items

/-- The `Object.entries(value).forEach` loop over plain-object entries. -/
def scanObjectEntries (entries : ConfigEntries) (options : SecretScanOptions)
    (currentPath : String) : Except ScanError (List String) :=
  match entries with
  | .nil => .ok []
  | .cons key child rest =>
    match ensureSafePropertyName key currentPath with
    | some e => .error e
    | none =>
      let nextPath := childPath currentPath key
      match enforceSecretPolicy key nextPath options with
      | .error e => .error e
      | .ok w1 =>
        match scanConfigForSecurityViolations child options nextPath with
        | .error e => .error e
        | .ok w2 =>
          match scanObjectEntries rest options currentPath with
          | .error e => .error e
          | .ok w3 => .ok (w1 ++ w2 ++ w3)
termination_by structural entries
end

/-! ## JWT data model -/

/-- A JS `string | string[]` value, as used for `aud`/`audience`. -/
inductive AudClaim where
  | str (s : String) : AudClaim
  | arr (l : List String) : AudClaim
deriving DecidableEq

/-- The fields of a JSON object that the verifier reads, one structure
serving as the duck-typed view of both `JwtHeader` and `JwtPayload`
(`JSON.parse` output is cast, never validated, in the source). A `none`
field models JS `undefined`: the field is absent or carries a value of a
type the relevant check ignores. -/
structure JsonObj where
  alg : Option String := none
  typ : Option String := none
  kid : Option String := none
  iss : Option String := none
  sub : Option String := none
  aud : Option AudClaim := none
  exp : Option Int := none
  nbf : Option Int := none
  iat : Option Int := none
deriving DecidableEq

/-- `JwtVerificationResult`. -/
structure JwtVerificationResult where
  header : JsonObj
  payload : JsonObj
deriving DecidableEq

/-- `JwtSecurityOptions` from `types.ts`. The `algorithms` entries are
kept as strings (as they are at runtime in JS). -/
structure JwtSecurityOptions where
  token : Option String := none
  tokenEnvName : Option String := none
  secret : Option String := none
  secretEnvName : Option String := none
  issuer : Option String := none
  subject : Option String := none
  audience : Option AudClaim := none
  required : Option Bool := none
  algorithms : Option (List String) := none
  clockToleranceSeconds : Option Int := none

/-- `SecurityOptions` from `types.ts`. -/
structure SecurityOptions where
  jwt : Option JwtSecurityOptions := none
  secrets : Option SecretValidationOptions := none

/-- `process.env`: a name-to-value map; `none` is an unset variable. -/
abbrev Env := String → Option String

/-- The external Node primitives the source calls into.
`hmacDigest hashAlgorithm secret signingInput` models
`crypto.createHmac(hashAlgorithm, secret).update(signingInput).digest()`;
`jsonParse bytes` models `JSON.parse(buffer.toString('utf8'))` projected
onto the fields the verifier reads, with `.error msg` modelling a thrown
parse error carrying message `msg`. -/
structure JsExt where
  hmacDigest : String → String → String → List Nat
  jsonParse : List Nat → Except String JsonObj

/-- `JWT_TOKEN_ENV`. -/
def JWT_TOKEN_ENV : String := "ASTRO_BUILD_TIME_TOKEN"

/-- `JWT_SECRET_ENV`. -/
def JWT_SECRET_ENV : String := "ASTRO_BUILD_TIME_SECRET"

/-- `ResolvedJwtInputs`. -/
structure ResolvedJwtInputs where
  token : Option String
  secret : Option String
  tokenEnvName : String
  secretEnvName : String

/-- `resolveJwtInputs`: explicit option value (`??`, so an explicit empty
string shadows the environment) falling back to the named environment
variable when the name itself is truthy. -/
def resolveJwtInputs (jwtOptions : JwtSecurityOptions) (env : Env) : ResolvedJwtInputs :=
  let tokenEnvName := jwtOptions.tokenEnvName.getD JWT_TOKEN_ENV
  let secretEnvName := jwtOptions.secretEnvName.getD JWT_SECRET_ENV
  let token := match jwtOptions.token with
    | some t => some t
    | none => if tokenEnvName ≠ "" then env tokenEnvName else none
  let secret := match jwtOptions.secret with
    | some s => some s
    | none => if secretEnvName ≠ "" then env secretEnvName else none
  { token := token, secret := secret, tokenEnvName := tokenEnvName, secretEnvName := secretEnvName }

/-- `HASH_ALGORITHM_BY_JWT_ALG`, as a runtime string lookup (`none`
models an `undefined` record access). -/
def HASH_ALGORITHM_BY_JWT_ALG (alg : String) : Option String :=
  if alg = "HS256" then some "sha256"
  else if alg = "HS384" then some "sha384"
  else if alg = "HS512" then some "sha512"
  else none

/-- `createHmacSignature`. The `none` lookup branch is unreachable in
`verifyJwtToken` (the algorithm has passed the allow-list whose entries
are all supported); it is mapped to the empty digest. -/
def createHmacSignature (ext : JsExt) (signingInput : String) (secret : String)
    (algorithm : String) : List Nat :=
  match HASH_ALGORITHM_BY_JWT_ALG algorithm with
  | some hashAlgorithm => ext.hmacDigest hashAlgorithm secret signingInput
  | none => []

/-- An `Error` thrown by `verifyJwtToken` / `validateJwtClaims`, with the
data interpolated into the message. `parseFailure` carries the segment
name and the inner `JSON.parse` message. -/
inductive JwtError where
  | missingToken (tokenEnvName : String) : JwtError
  | missingSecret (secretEnvName : String) : JwtError
  | unsupportedAlgorithm (alg : String) : JwtError
  | invalidFormat : JwtError
  | parseFailure (segmentName : String) (inner : String) : JwtError
  | algorithmNotAllowed (alg : Option String) : JwtError
  | signatureVerificationFailed : JwtError
  | expired : JwtError
  | notYetValid : JwtError
  | issuedInFuture : JwtError
  | issuerMismatch : JwtError
  | subjectMismatch : JwtError
  | audienceMismatch : JwtError
deriving DecidableEq

/-- The exact message of the thrown `Error` (JS renders an `undefined`
interpolation as the text `undefined`). -/
def JwtError.message : JwtError → String
  | .missingToken tokenEnvName =>
      "JWT token is required. Provide security.jwt.token or set the " ++ tokenEnvName ++ " environment variable."
  | .missingSecret secretEnvName =>
      "JWT secret is required. Provide security.jwt.secret or set the " ++ secretEnvName ++ " environment variable."
  | .unsupportedAlgorithm alg =>
      "Unsupported JWT algorithm \"" ++ alg ++ "\". Supported algorithms: HS256, HS384, HS512"
  | .invalidFormat => "Invalid JWT format. Expected header.payload.signature"
  | .parseFailure segmentName inner => "Unable to parse JWT " ++ segmentName ++ ". " ++ inner
  | .algorithmNotAllowed alg =>
      "JWT algorithm \"" ++ (match alg with | some a => a | none => "undefined") ++ "\" is not allowed."
  | .signatureVerificationFailed => "JWT signature verification failed"
  | .expired => "JWT token has expired."
  | .notYetValid => "JWT token is not valid yet (nbf check failed)."
  | .issuedInFuture => "JWT token issued-at (iat) claim is in the future."
  | .issuerMismatch => "JWT issuer claim mismatch."
  | .subjectMismatch => "JWT subject claim mismatch."
  | .audienceMismatch => "JWT audience claim mismatch."

/-- `parseJwtSegment`: base64url-decode and JSON-parse a segment,
wrapping a parse throw into the descriptive error naming the segment. -/
def parseJwtSegment (ext : JsExt) (segment : String) (segmentName : String) :
    Except JwtError JsonObj :=
  match ext.jsonParse (base64UrlDecode segment) with
  | .ok v => .ok v
  | .error inner => .error (.parseFailure segmentName inner)

/-- The source's `expectedAudience` ternary:
`Array.isArray(options.audience) ? options.audience : [options.audience]`
(only reached when the option is truthy). -/
def expectedAudienceList : Option AudClaim → List String
  | some (.arr l) => l
  | some (.str s) => [s]
  | none => []

/-- The source's `payloadAudience` ternary with its truthiness guard:
`payload.aud ? (Array.isArray(payload.aud) ? payload.aud : [payload.aud]) : []`.
An empty bare string is falsy and yields the empty list. -/
def payloadAudienceList : Option AudClaim → List String
  | some (.arr l) => l
  | some (.str s) => if s = "" then [] else [s]
  | none => []

/-- JS truthiness of a `string | string[] | undefined` value: arrays are
always truthy, a string is truthy when non-empty. -/
def jsTruthyAud : Option AudClaim → Bool
  | none => false
  | some (.str s) => s ≠ ""
  | some (.arr _) => true

/-- `validateJwtClaims`: time-based checks against
`Math.floor(now.getTime() / 1000)` with the clock tolerance
(default 60), then issuer, subject and audience checks. `now` is the
date's millisecond timestamp. -/
def validateJwtClaims (payload : JsonObj) (options : JwtSecurityOptions) (now : Int) :
    Except JwtError Unit :=
  let tolerance := options.clockToleranceSeconds.getD 60
  let nowSeconds := Int.fdiv now 1000
  if (match payload.exp with | some e => decide (e + tolerance ≤ nowSeconds) | none => false) then
    .error .expired
  else if (match payload.nbf with | some n => decide (nowSeconds < n - tolerance) | none => false) then
    .error .notYetValid
  else if (match payload.iat with | some i => decide (nowSeconds < i - tolerance) | none => false) then
    .error .issuedInFuture
  else if (match options.issuer with
           | some iss => iss ≠ "" && payload.iss ≠ some iss
           | none => false) then
    .error .issuerMismatch
  else if (match options.subject with
           | some sub => sub ≠ "" && payload.sub ≠ some sub
           | none => false) then
    .error .subjectMismatch
  else if jsTruthyAud options.audience then
    let expectedAudience := expectedAudienceList options.audience
    let payloadAudience := payloadAudienceList payload.aud
    if expectedAudience.any (fun aud => payloadAudience.contains aud) then .ok ()
    else .error .audienceMismatch
  else .ok ()

/-- `verifyJwtToken`: resolve inputs, check them, validate the requested
algorithm allow-list, split the token, parse the header, check its
algorithm, recompute and compare the signature, parse the payload, and
validate the claims. -/
def verifyJwtToken (ext : JsExt) (env : Env) (jwtOptions : JwtSecurityOptions) (now : Int) :
    Except JwtError JwtVerificationResult :=
  let ri := resolveJwtInputs jwtOptions env
  if !jsTruthyOptStr ri.token then .error (.missingToken ri.tokenEnvName)
  else if !jsTruthyOptStr ri.secret then .error (.missingSecret ri.secretEnvName)
  else
    let token := ri.token.getD ""
    let secret := ri.secret.getD ""
    let allowedAlgorithms := jwtOptions.algorithms.getD ["HS256"]
    match allowedAlgorithms.find? (fun alg => (HASH_ALGORITHM_BY_JWT_ALG alg).isNone) with
    | some alg => .error (.unsupportedAlgorithm alg)
    | none =>
      match jsSplitDot token with
      | [encodedHeader, encodedPayload, encodedSignature] =>
        (match parseJwtSegment ext encodedHeader "header" with
         | .error e => .error e
         | .ok header =>
           if !(match header.alg with
                | some a => allowedAlgorithms.contains a
                | none => false) then
             .error (.algorithmNotAllowed header.alg)
           else
             let signingInput := encodedHeader ++ "." ++ encodedPayload
             let expectedSignature :=
               createHmacSignature ext signingInput secret (header.alg.getD "")
             let providedSignature := base64UrlDecode encodedSignature
             if expectedSignature.length != providedSignature.length
                 || expectedSignature != providedSignature then
               .error .signatureVerificationFailed
             else
               match parseJwtSegment ext encodedPayload "payload" with
               | .error e => .error e
               | .ok payload =>
                 match validateJwtClaims payload jwtOptions now with
                 | .error e => .error e
                 | .ok _ => .ok { header := header, payload := payload })
      | _ => .error .invalidFormat

/-- An error propagated by the security gate: a scanner violation or a
verifier failure. -/
inductive SecurityError where
  | scanViolation (e : ScanError) : SecurityError
  | jwtFailure (e : JwtError) : SecurityError
deriving DecidableEq

/-- The gate's decision whether to run the verifier:
`jwt.required ?? false`, or a truthy resolved token. -/
def shouldValidateJwt (env : Env) (securityOptions : SecurityOptions) : Bool :=
  match securityOptions.jwt with
  | some jwtOptions =>
      jwtOptions.required.getD false || jsTruthyOptStr (resolveJwtInputs jwtOptions env).token
  | none => jsTruthyOptStr (resolveJwtInputs {} env).token

/-- `enforceSecurityOnConfig`: always scan the configuration tree at
path prefix `custom`; then verify the token exactly when
`shouldValidateJwt`, else return `none`. On success the collected
`console.warn` messages are returned next to the optional verification
result. -/
def enforceSecurityOnConfig (ext : JsExt) (env : Env) (buildTimeConstantsConfig : ConfigValue)
    (securityOptions : SecurityOptions) (now : Int) :
    Except SecurityError (List String × Option JwtVerificationResult) :=
  let secretScanOptions := normalizeSecretOptions securityOptions.secrets
  match scanConfigForSecurityViolations buildTimeConstantsConfig secretScanOptions "custom" with
  | .error e => .error (.scanViolation e)
  | .ok warnings =>
    if !shouldValidateJwt env securityOptions then .ok (warnings, none)
    else
      match verifyJwtToken ext env (securityOptions.jwt.getD {}) now with
      | .error e => .error (.jwtFailure e)
      | .ok result => .ok (warnings, some result)

/-! ## Helper lemmas -/

theorem strData_append (a b : String) : (a ++ b).data = a.data ++ b.data := by
  cases a
  cases b
  rfl

theorem strMk_data (s : String) : String.mk s.data = s := rfl

theorem splitOnDotAux_no_dot (l : List Char) (h : '.' ∉ l) : splitOnDotAux l = [l] := by
  induction l with
  | nil => rfl
  | cons c rest ih =>
    have hc : ¬ c = '.' := fun hc => h (hc ▸ List.mem_cons_self c rest)
    have hr : '.' ∉ rest := fun hr => h (List.mem_cons_of_mem c hr)
    simp [splitOnDotAux, hc, ih hr]

theorem splitOnDotAux_append (l1 l2 : List Char) (h : '.' ∉ l1) :
    splitOnDotAux (l1 ++ '.' :: l2) = l1 :: splitOnDotAux l2 := by
  induction l1 with
  | nil => simp [splitOnDotAux]
  | cons c rest ih =>
    have hc : ¬ c = '.' := fun hc => h (hc ▸ List.mem_cons_self c rest)
    have hr : '.' ∉ rest := fun hr => h (List.mem_cons_of_mem c hr)
    simp only [List.cons_append, splitOnDotAux, hc, if_false, List.append_eq, ih hr]

theorem joined_data (h p s : String) :
    (h ++ "." ++ p ++ "." ++ s).data = h.data ++ '.' :: (p.data ++ '.' :: s.data) := by
  have hdot : ("." : String).data = ['.'] := rfl
  simp [strData_append, hdot]

theorem jsSplitDot_join (h p s : String) (hh : '.' ∉ h.data) (hp : '.' ∉ p.data)
    (hs : '.' ∉ s.data) : jsSplitDot (h ++ "." ++ p ++ "." ++ s) = [h, p, s] := by
  rw [jsSplitDot, joined_data, splitOnDotAux_append _ _ hh, splitOnDotAux_append _ _ hp,
    splitOnDotAux_no_dot _ hs]
  simp [strMk_data]

theorem joined_ne_empty (h p s : String) : h ++ "." ++ p ++ "." ++ s ≠ "" := by
  intro he
  have hd := congrArg String.data he
  rw [joined_data] at hd
  simp at hd

/-- The signature comparison condition fires exactly on inequality of the
byte lists (a byte-length difference already makes the lists unequal, so
the short-circuit around `crypto.timingSafeEqual` never hides a
mismatch). -/
theorem signature_cond_eq (a b : List Nat) :
    (a.length != b.length || a != b) = (a != b) := by
  by_cases hl : a.length = b.length
  · simp [hl]
  · have hne : a ≠ b := fun he => hl (he ▸ rfl)
    simp [hl, hne]

/-! ## Concrete instances used by witnesses and counterexamples -/

/-- External primitives where every HMAC digest is 32 zero bytes and
every segment parses to an object with `alg = "HS256"` (a perfectly
legal behaviour of `crypto`/`JSON.parse` on suitable inputs). -/
def extStub32 : JsExt :=
  { hmacDigest := fun _ _ _ => List.replicate 32 0
    jsonParse := fun _ => .ok { alg := some "HS256" } }

/-- External primitives where `JSON.parse` always throws (as it does on
the empty string decoded from an empty segment). -/
def extParseFail : JsExt :=
  { hmacDigest := fun _ _ _ => []
    jsonParse := fun _ => .error "Unexpected end of JSON input" }

/-- External primitives with a one-byte digest. -/
def extDigest1 : JsExt :=
  { hmacDigest := fun _ _ _ => [0]
    jsonParse := fun _ => .ok { alg := some "HS256" } }

/-- External primitives with a three-byte digest `[1, 0, 0]`. -/
def extDigest3 : JsExt :=
  { hmacDigest := fun _ _ _ => [1, 0, 0]
    jsonParse := fun _ => .ok { alg := some "HS256" } }

/-- An environment with no variables set. -/
def emptyEnv : Env := fun _ => none

/-- The object the stub `jsonParse` returns. -/
def hdrHS256 : JsonObj := { alg := some "HS256" }

/-- Forty-three `'A'` characters: base64url for 32 zero bytes. -/
def sig43A : String := String.mk (List.replicate 43 'A')

/-! ## Claims -/

/-- C1: Round-trip. For any secret, any algorithm `a` of the allowed set
(whose entries are supported, as the TypeScript type
`SupportedJwtAlgorithm[]` guarantees), and any token made of dot-free
header/payload/signature segments such that the header parses to an
object declaring `a` and the signature segment decodes to the HMAC of
`header-segment ++ "." ++ payload-segment` under the secret with the
hash mapped from `a`, if the payload parses and its claims validate at
`now`, then `verifyJwtToken` succeeds and returns the parsed header and
payload unchanged. -/
theorem verifyJwtToken_roundtrip
    (ext : JsExt) (env : Env) (opts : JwtSecurityOptions) (now : Int)
    (h p s secret : String) (header payload : JsonObj) (a : String)
    (htoken : (resolveJwtInputs opts env).token = some (h ++ "." ++ p ++ "." ++ s))
    (hsecret : (resolveJwtInputs opts env).secret = some secret)
    (hsecretNe : secret ≠ "")
    (hh : '.' ∉ h.data) (hp : '.' ∉ p.data) (hs : '.' ∉ s.data)
    (hsupported : ∀ x ∈ opts.algorithms.getD ["HS256"], (HASH_ALGORITHM_BY_JWT_ALG x).isSome)
    (hparseH : ext.jsonParse (base64UrlDecode h) = .ok header)
    (halg : header.alg = some a)
    (hallowed : (opts.algorithms.getD ["HS256"]).contains a = true)
    (hsig : base64UrlDecode s = createHmacSignature ext (h ++ "." ++ p) secret a)
    (hparseP : ext.jsonParse (base64UrlDecode p) = .ok payload)
    (hclaims : validateJwtClaims payload opts now = .ok ()) :
    verifyJwtToken ext env opts now = .ok { header := header, payload := payload } := by
  have hfind : (opts.algorithms.getD ["HS256"]).find?
      (fun alg => (HASH_ALGORITHM_BY_JWT_ALG alg).isNone) = none := by
    rw [List.find?_eq_none]
    intro x hx
    have hsome := hsupported x hx
    simp [Option.isNone_iff_eq_none]
    intro hnone
    rw [hnone] at hsome
    simp at hsome
  have hne := joined_ne_empty h p s
  have hsplit := jsSplitDot_join h p s hh hp hs
  simp only [verifyJwtToken, htoken, hsecret, jsTruthyOptStr, hfind, hsplit, parseJwtSegment,
    hparseH, halg, hallowed, Option.getD_some, hclaims]
  simp [hne, hsecretNe, ← hsig, signature_cond_eq, hparseP, hclaims]

/-- Witness for C1 at a concrete token. -/
theorem verifyJwtToken_roundtrip_witness :
    verifyJwtToken extStub32 emptyEnv
        { token := some ("A" ++ "." ++ "A" ++ "." ++ sig43A), secret := some "k" } 0 =
      .ok { header := hdrHS256, payload := hdrHS256 } :=
  verifyJwtToken_roundtrip extStub32 emptyEnv
    { token := some ("A" ++ "." ++ "A" ++ "." ++ sig43A), secret := some "k" } 0
    "A" "A" sig43A "k" hdrHS256 hdrHS256 "HS256"
    rfl rfl (by decide) (by decide) (by decide) (by decide) (by decide)
    rfl rfl (by decide) (by decide) rfl rfl

/-- C2 -/
theorem verifyJwtToken_signature_mismatch_single_error
    (ext : JsExt) (env : Env) (opts : JwtSecurityOptions) (now : Int)
    (h p s secret : String) (header : JsonObj) (a : String)
    (htoken : (resolveJwtInputs opts env).token = some (h ++ "." ++ p ++ "." ++ s))
    (hsecret : (resolveJwtInputs opts env).secret = some secret)
    (hsecretNe : secret ≠ "")
    (hh : '.' ∉ h.data) (hp : '.' ∉ p.data) (hs : '.' ∉ s.data)
    (hsupported : ∀ x ∈ opts.algorithms.getD ["HS256"], (HASH_ALGORITHM_BY_JWT_ALG x).isSome)
    (hparseH : ext.jsonParse (base64UrlDecode h) = .ok header)
    (halg : header.alg = some a)
    (hallowed : (opts.algorithms.getD ["HS256"]).contains a = true)
    (hmismatch : createHmacSignature ext (h ++ "." ++ p) secret a ≠ base64UrlDecode s) :
    verifyJwtToken ext env opts now = .error .signatureVerificationFailed ∧
      JwtError.message .signatureVerificationFailed = "JWT signature verification failed" := by
  refine ⟨?_, rfl⟩
  have hfind : (opts.algorithms.getD ["HS256"]).find?
      (fun alg => (HASH_ALGORITHM_BY_JWT_ALG alg).isNone) = none := by
    rw [List.find?_eq_none]
    intro x hx
    have hsome := hsupported x hx
    simp [Option.isNone_iff_eq_none]
    intro hnone
    rw [hnone] at hsome
    simp at hsome
  have hne := joined_ne_empty h p s
  have hsplit := jsSplitDot_join h p s hh hp hs
  simp only [verifyJwtToken, htoken, hsecret, jsTruthyOptStr, hfind, hsplit, parseJwtSegment,
    hparseH, halg, hallowed, Option.getD_some]
  simp [hne, hsecretNe, signature_cond_eq, hmismatch]

/-- C2 witness -/
theorem verifyJwtToken_signature_mismatch_single_error_witness :
    (verifyJwtToken extDigest1 emptyEnv
        { token := some ("A" ++ "." ++ "A" ++ "." ++ "AAAA"), secret := some "k" } 0 =
          .error .signatureVerificationFailed ∧
      JwtError.message .signatureVerificationFailed = "JWT signature verification failed") ∧
    (verifyJwtToken extDigest3 emptyEnv
        { token := some ("A" ++ "." ++ "A" ++ "." ++ "AAAA"), secret := some "k" } 0 =
          .error .signatureVerificationFailed ∧
      JwtError.message .signatureVerificationFailed = "JWT signature verification failed") :=
  ⟨verifyJwtToken_signature_mismatch_single_error extDigest1 emptyEnv
      { token := some ("A" ++ "." ++ "A" ++ "." ++ "AAAA"), secret := some "k" } 0
      "A" "A" "AAAA" "k" hdrHS256 "HS256"
      rfl rfl (by decide) (by decide) (by decide) (by decide) (by decide)
      rfl rfl (by decide) (by decide),
    verifyJwtToken_signature_mismatch_single_error extDigest3 emptyEnv
      { token := some ("A" ++ "." ++ "A" ++ "." ++ "AAAA"), secret := some "k" } 0
      "A" "A" "AAAA" "k" hdrHS256 "HS256"
      rfl rfl (by decide) (by decide) (by decide) (by decide) (by decide)
      rfl rfl (by decide) (by decide)⟩

/-- C4 -/
theorem validateJwtClaims_expiry_iff
    (payload : JsonObj) (opts : JwtSecurityOptions) (now e : Int)
    (hexp : payload.exp = some e) :
    (validateJwtClaims payload opts now = .error .expired ↔
      e + opts.clockToleranceSeconds.getD 60 ≤ Int.fdiv now 1000) ∧
    validateJwtClaims { exp := some 939 } {} 1000000 = .error .expired ∧
    validateJwtClaims { exp := some 941 } {} 1000000 = .ok () := by
  refine ⟨⟨?_, ?_⟩, rfl, rfl⟩
  · intro hres
    by_contra hlt
    simp only [validateJwtClaims, hexp] at hres
    rw [if_neg (by simpa using hlt)] at hres
    split at hres
    · exact absurd hres (by simp)
    · split at hres
      · exact absurd hres (by simp)
      · split at hres
        · exact absurd hres (by simp)
        · split at hres
          · exact absurd hres (by simp)
          · split at hres
            · split at hres
              · exact absurd hres (by simp)
              · exact absurd hres (by simp)
            · exact absurd hres (by simp)
  · intro hge
    simp [validateJwtClaims, hexp, hge]

/-- C4 witness -/
theorem validateJwtClaims_expiry_iff_witness :
    (validateJwtClaims { exp := some 939 } {} 1000000 = .error .expired ↔
      (939 : Int) + 60 ≤ Int.fdiv 1000000 1000) ∧
    validateJwtClaims { exp := some 939 } {} 1000000 = .error .expired :=
  ⟨(validateJwtClaims_expiry_iff { exp := some 939 } {} 1000000 939 rfl).1,
    (validateJwtClaims_expiry_iff { exp := some 939 } {} 1000000 939 rfl).2.1⟩

/-- C10 -/
theorem verifyJwtToken_empty_inputs_missing_errors
    (ext : JsExt) (env : Env) (opts : JwtSecurityOptions) (now : Int) :
    (opts.token = some "" →
      verifyJwtToken ext env opts now =
          .error (.missingToken (opts.tokenEnvName.getD JWT_TOKEN_ENV)) ∧
        (JwtError.missingToken (opts.tokenEnvName.getD JWT_TOKEN_ENV)).message =
          "JWT token is required. Provide security.jwt.token or set the " ++
            opts.tokenEnvName.getD JWT_TOKEN_ENV ++ " environment variable." ∧
        JwtError.missingToken (opts.tokenEnvName.getD JWT_TOKEN_ENV) ≠ .invalidFormat) ∧
    (opts.secret = some "" → jsTruthyOptStr (resolveJwtInputs opts env).token = true →
      verifyJwtToken ext env opts now =
          .error (.missingSecret (opts.secretEnvName.getD JWT_SECRET_ENV)) ∧
        JwtError.missingSecret (opts.secretEnvName.getD JWT_SECRET_ENV) ≠ .invalidFormat) := by
  constructor
  · intro ht
    have hres : (resolveJwtInputs opts env).token = some "" := by
      simp [resolveJwtInputs, ht]
    have henv : (resolveJwtInputs opts env).tokenEnvName = opts.tokenEnvName.getD JWT_TOKEN_ENV := by
      simp [resolveJwtInputs]
    refine ⟨?_, rfl, by simp⟩
    simp [verifyJwtToken, hres, henv, jsTruthyOptStr]
  · intro hsec htr
    have hres : (resolveJwtInputs opts env).secret = some "" := by
      simp [resolveJwtInputs, hsec]
    have henv : (resolveJwtInputs opts env).secretEnvName =
        opts.secretEnvName.getD JWT_SECRET_ENV := by
      simp [resolveJwtInputs]
    have hfal : jsTruthyOptStr (some "") = false := rfl
    refine ⟨?_, by simp⟩
    simp [verifyJwtToken, hres, henv, htr, hfal]

/-- C10 witness -/
theorem verifyJwtToken_empty_inputs_missing_errors_witness :
    (verifyJwtToken extStub32 (fun _ => some "x.y.z") { token := some "" } 0 =
        .error (.missingToken "ASTRO_BUILD_TIME_TOKEN") ∧
      (JwtError.missingToken "ASTRO_BUILD_TIME_TOKEN").message =
        "JWT token is required. Provide security.jwt.token or set the " ++
          "ASTRO_BUILD_TIME_TOKEN" ++ " environment variable." ∧
      JwtError.missingToken "ASTRO_BUILD_TIME_TOKEN" ≠ .invalidFormat) ∧
    (verifyJwtToken extStub32 (fun _ => some "x.y.z") { secret := some "" } 0 =
        .error (.missingSecret "ASTRO_BUILD_TIME_SECRET") ∧
      JwtError.missingSecret "ASTRO_BUILD_TIME_SECRET" ≠ .invalidFormat) :=
  ⟨(verifyJwtToken_empty_inputs_missing_errors extStub32 (fun _ => some "x.y.z")
      { token := some "" } 0).1 rfl,
    (verifyJwtToken_empty_inputs_missing_errors extStub32 (fun _ => some "x.y.z")
      { secret := some "" } 0).2 rfl (by decide)⟩

theorem parseJwtSegment_error_ne_invalidFormat (ext : JsExt) (seg name : String) (e : JwtError)
    (h : parseJwtSegment ext seg name = .error e) : e ≠ .invalidFormat := by
  unfold parseJwtSegment at h
  split at h
  · simp at h
  · rename_i inner heq
    rw [Except.error.injEq] at h
    subst h
    simp

theorem validateJwtClaims_ne_invalidFormat (payload : JsonObj) (opts : JwtSecurityOptions)
    (now : Int) : validateJwtClaims payload opts now ≠ .error .invalidFormat := by
  intro h
  simp only [validateJwtClaims] at h
  repeat' split at h
  all_goals simp at h

/-- C5 counterexample -/
theorem verifyJwtToken_empty_segment_counterexample :
    jsSplitDot ".." = ["", "", ""] ∧
    verifyJwtToken extParseFail emptyEnv { token := some "..", secret := some "k" } 0 =
      .error (.parseFailure "header" "Unexpected end of JSON input") ∧
    JwtError.parseFailure "header" "Unexpected end of JSON input" ≠ .invalidFormat := by
  refine ⟨rfl, rfl, by decide⟩

/-- C5 amended -/
theorem verifyJwtToken_format_error_iff_segment_count
    (ext : JsExt) (env : Env) (opts : JwtSecurityOptions) (now : Int) (t : String)
    (htoken : (resolveJwtInputs opts env).token = some t) (htne : t ≠ "")
    (hsecret : jsTruthyOptStr (resolveJwtInputs opts env).secret = true)
    (hsupported : ∀ x ∈ opts.algorithms.getD ["HS256"], (HASH_ALGORITHM_BY_JWT_ALG x).isSome) :
    verifyJwtToken ext env opts now = .error .invalidFormat ↔ (jsSplitDot t).length ≠ 3 := by
  have hfind : (opts.algorithms.getD ["HS256"]).find?
      (fun alg => (HASH_ALGORITHM_BY_JWT_ALG alg).isNone) = none := by
    rw [List.find?_eq_none]
    intro x hx
    have hsome := hsupported x hx
    simp [Option.isNone_iff_eq_none]
    intro hnone
    rw [hnone] at hsome
    simp at hsome
  have htt : jsTruthyOptStr (some t) = true := by simp [jsTruthyOptStr, htne]
  simp only [verifyJwtToken, htoken, hsecret, htt, Bool.not_true, Bool.false_eq_true, if_false,
    hfind, Option.getD_some]
  generalize jsSplitDot t = segs
  rcases segs with _ | ⟨a, _ | ⟨b, _ | ⟨c, _ | ⟨d, rest⟩⟩⟩⟩
  · simp
  · simp
  · simp
  · simp only [List.length_cons, List.length_nil]
    norm_num
    rcases hph : parseJwtSegment ext a "header" with e | hd
    · simpa using parseJwtSegment_error_ne_invalidFormat ext a "header" e hph
    · simp only []
      split
      · simp
      · split
        · simp
        · rcases hpp : parseJwtSegment ext b "payload" with e2 | pl
          · simpa using parseJwtSegment_error_ne_invalidFormat ext b "payload" e2 hpp
          · rcases hv : validateJwtClaims pl opts now with e3 | u
            · have hne3 := validateJwtClaims_ne_invalidFormat pl opts now
              rw [hv] at hne3
              simp [hv]
              exact fun hc => hne3 (by rw [hc])
            · simp [hv]
  · simp

/-- C5 amended witness -/
theorem verifyJwtToken_format_error_iff_segment_count_witness :
    verifyJwtToken extStub32 emptyEnv { token := some "a.b", secret := some "k" } 0 =
        .error .invalidFormat ↔ (jsSplitDot "a.b").length ≠ 3 :=
  verifyJwtToken_format_error_iff_segment_count extStub32 emptyEnv
    { token := some "a.b", secret := some "k" } 0 "a.b" rfl (by decide) rfl (by decide)

/-- Flip bit `k` of the character code at index `i`. -/
def flipCharBit (c : Char) (k : Nat) : Char :=
  Char.ofNat (c.toNat ^^^ (1 <<< k))

/-- The string with bit `k` of the character at index `i` flipped. -/
def flipStringBit (s : String) (i k : Nat) : String :=
  String.mk (s.data.mapIdx (fun j c => if j = i then flipCharBit c k else c))

/-- 42 `'A'`s then `'C'`: base64url for 32 zero bytes (the final
character contributes only two bits beyond the 32nd byte, and they are
discarded). -/
def sig42AC : String := String.mk (List.replicate 42 'A' ++ ['C'])

/-- 42 `'A'`s then `'B'`: `sig42AC` with the lowest bit of its last
character flipped; still base64url for 32 zero bytes. -/
def sig42AB : String := String.mk (List.replicate 42 'A' ++ ['B'])

/-- 43 `'B'`s: decodes to bytes different from 32 zero bytes. -/
def sig43B : String := String.mk (List.replicate 43 'B')

/-- C3 counterexample -/
theorem signature_bitflip_accepted_counterexample :
    flipStringBit sig42AC 42 0 = sig42AB ∧ sig42AB ≠ sig42AC ∧
    verifyJwtToken extStub32 emptyEnv
        { token := some ("A.A." ++ sig42AC), secret := some "k" } 0 =
      .ok { header := hdrHS256, payload := hdrHS256 } ∧
    verifyJwtToken extStub32 emptyEnv
        { token := some ("A.A." ++ sig42AB), secret := some "k" } 0 =
      .ok { header := hdrHS256, payload := hdrHS256 } :=
  ⟨by decide, by decide, rfl, rfl⟩

/-- Inversion of a successful verification: the resolved secret is
truthy, every requested algorithm is supported, and for the three
segments of the token the header parses, its algorithm is allowed, and
the recomputed HMAC equals the decoded signature segment. -/
theorem verifyJwtToken_ok_inversion
    (ext : JsExt) (env : Env) (opts : JwtSecurityOptions) (now : Int) (r : JwtVerificationResult)
    (t : String)
    (htok : (resolveJwtInputs opts env).token = some t) (htne : t ≠ "")
    (hacc : verifyJwtToken ext env opts now = .ok r) :
    jsTruthyOptStr (resolveJwtInputs opts env).secret = true ∧
    (opts.algorithms.getD ["HS256"]).find?
        (fun alg => (HASH_ALGORITHM_BY_JWT_ALG alg).isNone) = none ∧
    ∀ h p s, jsSplitDot t = [h, p, s] →
      ∃ header,
        parseJwtSegment ext h "header" = .ok header ∧
        (match header.alg with
          | some a => (opts.algorithms.getD ["HS256"]).contains a
          | none => false) = true ∧
        createHmacSignature ext (h ++ "." ++ p) ((resolveJwtInputs opts env).secret.getD "")
            (header.alg.getD "") = base64UrlDecode s := by
  have htt : jsTruthyOptStr (some t) = true := by simp [jsTruthyOptStr, htne]
  simp only [verifyJwtToken, htok, htt, Bool.not_true, Bool.false_eq_true, if_false,
    Option.getD_some] at hacc
  by_cases hsecOk : jsTruthyOptStr (resolveJwtInputs opts env).secret = true
  case neg =>
    have hxf : jsTruthyOptStr (resolveJwtInputs opts env).secret = false := by
      revert hsecOk
      cases jsTruthyOptStr (resolveJwtInputs opts env).secret <;> simp
    simp [hxf] at hacc
  case pos =>
    simp only [hsecOk, Bool.not_true, Bool.false_eq_true, if_false] at hacc
    refine ⟨hsecOk, ?_⟩
    cases hfind : (opts.algorithms.getD ["HS256"]).find?
        (fun alg => (HASH_ALGORITHM_BY_JWT_ALG alg).isNone) with
    | some a =>
      simp only [hfind] at hacc
      simp at hacc
    | none =>
      refine ⟨rfl, ?_⟩
      simp only [hfind] at hacc
      intro h p s hsplit
      simp only [hsplit] at hacc
      cases hph : parseJwtSegment ext h "header" with
      | error e =>
        simp only [hph] at hacc
        simp at hacc
      | ok header =>
        simp only [hph] at hacc
        refine ⟨header, rfl, ?_⟩
        by_cases halgc : (match header.alg with
            | some a => (opts.algorithms.getD ["HS256"]).contains a
            | none => false) = true
        case neg =>
          have hf : (match header.alg with
              | some a => (opts.algorithms.getD ["HS256"]).contains a
              | none => false) = false := by
            revert halgc
            cases (match header.alg with
              | some a => (opts.algorithms.getD ["HS256"]).contains a
              | none => false) <;> simp
          rw [hf] at hacc
          simp at hacc
        case pos =>
          refine ⟨halgc, ?_⟩
          simp only [halgc, Bool.not_true, Bool.false_eq_true, if_false] at hacc
          by_cases hsigc : ((createHmacSignature ext (h ++ "." ++ p)
                ((resolveJwtInputs opts env).secret.getD "") (header.alg.getD "")).length
              != (base64UrlDecode s).length
            || createHmacSignature ext (h ++ "." ++ p)
                ((resolveJwtInputs opts env).secret.getD "") (header.alg.getD "")
              != base64UrlDecode s) = true
          · simp only [hsigc, if_true] at hacc
            simp at hacc
          · rw [signature_cond_eq] at hsigc
            simpa [bne_iff_ne] using hsigc

/-- C3 amended -/
theorem verifyJwtToken_rejects_changed_signature_bytes
    (ext : JsExt) (env : Env) (opts : JwtSecurityOptions) (now : Int) (r : JwtVerificationResult)
    (h p s s2 : String)
    (hopt : opts.token = some (h ++ "." ++ p ++ "." ++ s))
    (hh : '.' ∉ h.data) (hp : '.' ∉ p.data) (hs : '.' ∉ s.data) (hs2 : '.' ∉ s2.data)
    (hdiff : base64UrlDecode s2 ≠ base64UrlDecode s)
    (hacc : verifyJwtToken ext env opts now = .ok r) :
    verifyJwtToken ext env { opts with token := some (h ++ "." ++ p ++ "." ++ s2) } now =
      .error .signatureVerificationFailed := by
  have ht1 : (resolveJwtInputs opts env).token = some (h ++ "." ++ p ++ "." ++ s) := by
    simp [resolveJwtInputs, hopt]
  have ht2 : (resolveJwtInputs { opts with token := some (h ++ "." ++ p ++ "." ++ s2) } env).token
      = some (h ++ "." ++ p ++ "." ++ s2) := by
    simp [resolveJwtInputs]
  have hsec2 : (resolveJwtInputs { opts with token := some (h ++ "." ++ p ++ "." ++ s2) } env).secret
      = (resolveJwtInputs opts env).secret := by
    simp [resolveJwtInputs]
  have halgs : ({ opts with token := some (h ++ "." ++ p ++ "." ++ s2) } :
      JwtSecurityOptions).algorithms = opts.algorithms := rfl
  have htt2 : jsTruthyOptStr (some (h ++ "." ++ p ++ "." ++ s2)) = true := by
    simp [jsTruthyOptStr, joined_ne_empty]
  obtain ⟨hsecOk, hfind, hrest⟩ := verifyJwtToken_ok_inversion ext env opts now r
    (h ++ "." ++ p ++ "." ++ s) ht1 (joined_ne_empty h p s) hacc
  obtain ⟨header, hph, halgc, hexp⟩ := hrest h p s (jsSplitDot_join h p s hh hp hs)
  have hneq : createHmacSignature ext (h ++ "." ++ p)
      ((resolveJwtInputs opts env).secret.getD "") (header.alg.getD "")
      ≠ base64UrlDecode s2 := by
    rw [hexp]
    exact fun hc => hdiff hc.symm
  simp only [verifyJwtToken, ht2, htt2, Bool.not_true, Bool.false_eq_true, if_false, hsec2,
    halgs, hsecOk, hfind, Option.getD_some, jsSplitDot_join h p s2 hh hp hs2, hph, halgc]
  rw [if_pos (by rw [signature_cond_eq]; simpa [bne_iff_ne] using hneq)]

/-- C3 amended witness -/
theorem verifyJwtToken_rejects_changed_signature_bytes_witness :
    verifyJwtToken extStub32 emptyEnv
        { token := some ("A" ++ "." ++ "A" ++ "." ++ sig43B), secret := some "k" } 0 =
      .error .signatureVerificationFailed :=
  verifyJwtToken_rejects_changed_signature_bytes extStub32 emptyEnv
    { token := some ("A" ++ "." ++ "A" ++ "." ++ sig43A), secret := some "k" } 0
    { header := hdrHS256, payload := hdrHS256 } "A" "A" sig43A sig43B
    rfl (by decide) (by decide) (by decide) (by decide) (by decide) rfl

/-! ## Tree predicates for the scanner claims -/

/-- Does the scan result represent a throw? -/
def scanFails : Except ScanError (List String) → Bool
  | .error _ => true
  | .ok _ => false

mutual
/-- Some mapping key anywhere in the tree is a prohibited property name. -/
def containsUnsafeKey : ConfigValue → Bool
  | .obj entries => entriesContainUnsafeKey entries
  | .arr items => itemsContainUnsafeKey items
  | _ => false
termination_by structural v => v

/-- `containsUnsafeKey` over object entries. -/
def entriesContainUnsafeKey : ConfigEntries → Bool
  | .nil => false
  | .cons key value rest =>
    PROHIBITED_PROPERTY_NAMES.contains key || containsUnsafeKey value
      || entriesContainUnsafeKey rest
termination_by structural entries => entries

/-- `containsUnsafeKey` over array items. -/
def itemsContainUnsafeKey : ConfigItems → Bool
  | .nil => false
  | .cons value rest => containsUnsafeKey value || itemsContainUnsafeKey rest
termination_by structural items => items
end

mutual
/-- Some mapping key anywhere in the tree contains (lowercased) a
blocklist entry as a substring. -/
def hasBlockedKey (blocklist : List String) : ConfigValue → Bool
  | .obj entries => entriesHaveBlockedKey blocklist entries
  | .arr items => itemsHaveBlockedKey blocklist items
  | _ => false
termination_by structural v => v

/-- `hasBlockedKey` over object entries. -/
def entriesHaveBlockedKey (blocklist : List String) : ConfigEntries → Bool
  | .nil => false
  | .cons key value rest =>
    blocklist.any (fun b => strContainsSubstr (jsToLowerCase key) b)
      || hasBlockedKey blocklist value || entriesHaveBlockedKey blocklist rest
termination_by structural entries => entries

/-- `hasBlockedKey` over array items. -/
def itemsHaveBlockedKey (blocklist : List String) : ConfigItems → Bool
  | .nil => false
  | .cons value rest => hasBlockedKey blocklist value || itemsHaveBlockedKey blocklist rest
termination_by structural items => items
end

mutual
/-- Every leaf of the tree is a serializable value. -/
def allLeavesSerializable : ConfigValue → Bool
  | .obj entries => entriesAllSerializable entries
  | .arr items => itemsAllSerializable items
  | leaf => isSerializableLeaf leaf
termination_by structural v => v

/-- `allLeavesSerializable` over object entries. -/
def entriesAllSerializable : ConfigEntries → Bool
  | .nil => true
  | .cons _ value rest => allLeavesSerializable value && entriesAllSerializable rest
termination_by structural entries => entries

/-- `allLeavesSerializable` over array items. -/
def itemsAllSerializable : ConfigItems → Bool
  | .nil => true
  | .cons value rest => allLeavesSerializable value && itemsAllSerializable rest
termination_by structural items => items
end

theorem enforceSecretPolicy_ok_of_no_match (key path : String) (opts : SecretScanOptions)
    (hb : opts.blocklist.any (fun b => strContainsSubstr (jsToLowerCase key) b) = false) :
    enforceSecretPolicy key path opts = .ok [] := by
  have hfind : opts.blocklist.find?
      (fun blockedKey => strContainsSubstr (jsToLowerCase key) blockedKey) = none := by
    rw [List.find?_eq_none]
    intro x hx
    rw [List.any_eq_false] at hb
    simpa using hb x hx
  simp [enforceSecretPolicy, hfind]

mutual
theorem scan_ok_of_clean : ∀ (v : ConfigValue) (opts : SecretScanOptions) (path : String),
    hasBlockedKey opts.blocklist v = false → containsUnsafeKey v = false →
    allLeavesSerializable v = true →
    scanConfigForSecurityViolations v opts path = .ok []
  | .obj entries, opts, path, hb, hu, hs => by
    have he := scanEntries_ok_of_clean entries opts path
      (by simpa [hasBlockedKey] using hb) (by simpa [containsUnsafeKey] using hu)
      (by simpa [allLeavesSerializable] using hs)
    simpa [scanConfigForSecurityViolations] using he
  | .arr items, opts, path, hb, hu, hs => by
    have hi := scanItems_ok_of_clean items opts path 0
      (by simpa [hasBlockedKey] using hb) (by simpa [containsUnsafeKey] using hu)
      (by simpa [allLeavesSerializable] using hs)
    simpa [scanConfigForSecurityViolations] using hi
  | .null, opts, path, hb, hu, hs => by
    simp [scanConfigForSecurityViolations, isSerializableLeaf]
  | .bool b, opts, path, hb, hu, hs => by
    simp [scanConfigForSecurityViolations, isSerializableLeaf]
  | .num n, opts, path, hb, hu, hs => by
    simp [scanConfigForSecurityViolations, isSerializableLeaf]
  | .str s, opts, path, hb, hu, hs => by
    simp [scanConfigForSecurityViolations, isSerializableLeaf]
  | .date d, opts, path, hb, hu, hs => by
    simp [scanConfigForSecurityViolations, isSerializableLeaf]
  | .withToJSON, opts, path, hb, hu, hs => by
    simp [scanConfigForSecurityViolations, isSerializableLeaf]
  | .other, opts, path, hb, hu, hs => by
    simp [allLeavesSerializable, isSerializableLeaf] at hs

theorem scanEntries_ok_of_clean : ∀ (entries : ConfigEntries) (opts : SecretScanOptions)
    (path : String),
    entriesHaveBlockedKey opts.blocklist entries = false →
    entriesContainUnsafeKey entries = false → entriesAllSerializable entries = true →
    scanObjectEntries entries opts path = .ok []
  | .nil, opts, path, hb, hu, hs => by simp [scanObjectEntries]
  | .cons key value rest, opts, path, hb, hu, hs => by
    rw [entriesHaveBlockedKey, Bool.or_eq_false_iff, Bool.or_eq_false_iff] at hb
    rw [entriesContainUnsafeKey, Bool.or_eq_false_iff, Bool.or_eq_false_iff] at hu
    rw [entriesAllSerializable, Bool.and_eq_true] at hs
    have hpol := enforceSecretPolicy_ok_of_no_match key (childPath path key) opts hb.1.1
    have hchild := scan_ok_of_clean value opts (childPath path key) hb.1.2 hu.1.2 hs.1
    have hrest := scanEntries_ok_of_clean rest opts path hb.2 hu.2 hs.2
    have hmem : key ∉ PROHIBITED_PROPERTY_NAMES := by simpa using hu.1.1
    simp [scanObjectEntries, ensureSafePropertyName, hmem, hpol, hchild, hrest]

theorem scanItems_ok_of_clean : ∀ (items : ConfigItems) (opts : SecretScanOptions)
    (path : String) (index : Nat),
    itemsHaveBlockedKey opts.blocklist items = false →
    itemsContainUnsafeKey items = false → itemsAllSerializable items = true →
    scanArrayItems items opts path index = .ok []
  | .nil, opts, path, index, hb, hu, hs => by simp [scanArrayItems]
  | .cons value rest, opts, path, index, hb, hu, hs => by
    rw [itemsHaveBlockedKey, Bool.or_eq_false_iff] at hb
    rw [itemsContainUnsafeKey, Bool.or_eq_false_iff] at hu
    rw [itemsAllSerializable, Bool.and_eq_true] at hs
    have hchild := scan_ok_of_clean value opts (path ++ "[" ++ toString index ++ "]")
      hb.1 hu.1 hs.1
    have hrest := scanItems_ok_of_clean rest opts path (index + 1) hb.2 hu.2 hs.2
    simp [scanArrayItems, hchild, hrest]
end

mutual
theorem scan_fails_of_unsafe_key : ∀ (v : ConfigValue) (opts : SecretScanOptions) (path : String),
    containsUnsafeKey v = true →
    scanFails (scanConfigForSecurityViolations v opts path) = true
  | .obj entries, opts, path, hu => by
    have he := scanEntries_fails_of_unsafe_key entries opts path (by simpa [containsUnsafeKey] using hu)
    simpa [scanConfigForSecurityViolations] using he
  | .arr items, opts, path, hu => by
    have hi := scanItems_fails_of_unsafe_key items opts path 0 (by simpa [containsUnsafeKey] using hu)
    simpa [scanConfigForSecurityViolations] using hi
  | .null, opts, path, hu => by simp [containsUnsafeKey] at hu
  | .bool b, opts, path, hu => by simp [containsUnsafeKey] at hu
  | .num n, opts, path, hu => by simp [containsUnsafeKey] at hu
  | .str s, opts, path, hu => by simp [containsUnsafeKey] at hu
  | .date d, opts, path, hu => by simp [containsUnsafeKey] at hu
  | .withToJSON, opts, path, hu => by simp [containsUnsafeKey] at hu
  | .other, opts, path, hu => by simp [containsUnsafeKey] at hu

theorem scanEntries_fails_of_unsafe_key : ∀ (entries : ConfigEntries) (opts : SecretScanOptions)
    (path : String), entriesContainUnsafeKey entries = true →
    scanFails (scanObjectEntries entries opts path) = true
  | .cons key value rest, opts, path, hu => by
    cases hk : PROHIBITED_PROPERTY_NAMES.contains key with
    | true =>
      have hmem : key ∈ PROHIBITED_PROPERTY_NAMES := by simpa using hk
      simp [scanObjectEntries, ensureSafePropertyName, hmem, scanFails]
    | false =>
      have hmem : key ∉ PROHIBITED_PROPERTY_NAMES := by simpa using hk
      rw [entriesContainUnsafeKey, hk, Bool.false_or, Bool.or_eq_true] at hu
      cases hpol : enforceSecretPolicy key (childPath path key) opts with
      | error e =>
        simp [scanObjectEntries, ensureSafePropertyName, hmem, hpol, scanFails]
      | ok w1 =>
        cases hchild : scanConfigForSecurityViolations value opts (childPath path key) with
        | error e =>
          simp [scanObjectEntries, ensureSafePropertyName, hmem, hpol, hchild, scanFails]
        | ok w2 =>
          have hrestu : entriesContainUnsafeKey rest = true := by
            rcases hu with huv | hur
            · have hf := scan_fails_of_unsafe_key value opts (childPath path key) huv
              rw [hchild] at hf
              simp [scanFails] at hf
            · exact hur
          have hrest := scanEntries_fails_of_unsafe_key rest opts path hrestu
          cases hrestr : scanObjectEntries rest opts path with
          | error e =>
            simp [scanObjectEntries, ensureSafePropertyName, hmem, hpol, hchild, hrestr, scanFails]
          | ok w3 =>
            rw [hrestr] at hrest
            simp [scanFails] at hrest

theorem scanItems_fails_of_unsafe_key : ∀ (items : ConfigItems) (opts : SecretScanOptions)
    (path : String) (index : Nat), itemsContainUnsafeKey items = true →
    scanFails (scanArrayItems items opts path index) = true
  | .cons value rest, opts, path, index, hu => by
    rw [itemsContainUnsafeKey, Bool.or_eq_true] at hu
    cases hchild : scanConfigForSecurityViolations value opts
        (path ++ "[" ++ toString index ++ "]") with
    | error e => simp [scanArrayItems, hchild, scanFails]
    | ok w1 =>
      have hrestu : itemsContainUnsafeKey rest = true := by
        rcases hu with huv | hur
        · have hf := scan_fails_of_unsafe_key value opts (path ++ "[" ++ toString index ++ "]") huv
          rw [hchild] at hf
          simp [scanFails] at hf
        · exact hur
      have hrest := scanItems_fails_of_unsafe_key rest opts path (index + 1) hrestu
      cases hrestr : scanArrayItems rest opts path (index + 1) with
      | error e => simp [scanArrayItems, hchild, hrestr, scanFails]
      | ok w2 =>
        rw [hrestr] at hrest
        simp [scanFails] at hrest
end

/-- Is the result precisely an unsafe-property-name throw? -/
def isUnsafeNameError : Except ScanError (List String) → Bool
  | .error (.unsafePropertyName _) => true
  | _ => false

theorem enforceSecretPolicy_warn_no_error (key path : String) (opts : SecretScanOptions)
    (hw : opts.mode = .warn) (e : ScanError) : enforceSecretPolicy key path opts ≠ .error e := by
  intro h
  simp only [enforceSecretPolicy] at h
  split at h
  · simp at h
  · split at h
    · simp at h
    · simp [hw] at h

mutual
theorem scan_warn_ok_of_no_unsafe_key : ∀ (v : ConfigValue) (opts : SecretScanOptions)
    (path : String), opts.mode = .warn → allLeavesSerializable v = true →
    containsUnsafeKey v = false →
    scanFails (scanConfigForSecurityViolations v opts path) = false
  | .obj entries, opts, path, hw, hs, hu => by
    have he := scanEntries_warn_ok_of_no_unsafe_key entries opts path hw
      (by simpa [allLeavesSerializable] using hs) (by simpa [containsUnsafeKey] using hu)
    simpa [scanConfigForSecurityViolations] using he
  | .arr items, opts, path, hw, hs, hu => by
    have hi := scanItems_warn_ok_of_no_unsafe_key items opts path 0 hw
      (by simpa [allLeavesSerializable] using hs) (by simpa [containsUnsafeKey] using hu)
    simpa [scanConfigForSecurityViolations] using hi
  | .null, opts, path, hw, hs, hu => by
    simp [scanConfigForSecurityViolations, isSerializableLeaf, scanFails]
  | .bool b, opts, path, hw, hs, hu => by
    simp [scanConfigForSecurityViolations, isSerializableLeaf, scanFails]
  | .num n, opts, path, hw, hs, hu => by
    simp [scanConfigForSecurityViolations, isSerializableLeaf, scanFails]
  | .str s, opts, path, hw, hs, hu => by
    simp [scanConfigForSecurityViolations, isSerializableLeaf, scanFails]
  | .date d, opts, path, hw, hs, hu => by
    simp [scanConfigForSecurityViolations, isSerializableLeaf, scanFails]
  | .withToJSON, opts, path, hw, hs, hu => by
    simp [scanConfigForSecurityViolations, isSerializableLeaf, scanFails]
  | .other, opts, path, hw, hs, hu => by
    simp [allLeavesSerializable, isSerializableLeaf] at hs

theorem scanEntries_warn_ok_of_no_unsafe_key : ∀ (entries : ConfigEntries)
    (opts : SecretScanOptions) (path : String), opts.mode = .warn →
    entriesAllSerializable entries = true → entriesContainUnsafeKey entries = false →
    scanFails (scanObjectEntries entries opts path) = false
  | .nil, opts, path, hw, hs, hu => by simp [scanObjectEntries, scanFails]
  | .cons key value rest, opts, path, hw, hs, hu => by
    rw [entriesContainUnsafeKey, Bool.or_eq_false_iff, Bool.or_eq_false_iff] at hu
    rw [entriesAllSerializable, Bool.and_eq_true] at hs
    have hmem : key ∉ PROHIBITED_PROPERTY_NAMES := by simpa using hu.1.1
    cases hpol : enforceSecretPolicy key (childPath path key) opts with
    | error e => exact absurd hpol (enforceSecretPolicy_warn_no_error key _ opts hw e)
    | ok w1 =>
      cases hchild : scanConfigForSecurityViolations value opts (childPath path key) with
      | error e =>
        have hf := scan_warn_ok_of_no_unsafe_key value opts (childPath path key) hw hs.1 hu.1.2
        rw [hchild] at hf
        simp [scanFails] at hf
      | ok w2 =>
        cases hrestr : scanObjectEntries rest opts path with
        | error e =>
          have hf := scanEntries_warn_ok_of_no_unsafe_key rest opts path hw hs.2 hu.2
          rw [hrestr] at hf
          simp [scanFails] at hf
        | ok w3 =>
          simp [scanObjectEntries, ensureSafePropertyName, hmem, hpol, hchild, hrestr, scanFails]

theorem scanItems_warn_ok_of_no_unsafe_key : ∀ (items : ConfigItems) (opts : SecretScanOptions)
    (path : String) (index : Nat), opts.mode = .warn →
    itemsAllSerializable items = true → itemsContainUnsafeKey items = false →
    scanFails (scanArrayItems items opts path index) = false
  | .nil, opts, path, index, hw, hs, hu => by simp [scanArrayItems, scanFails]
  | .cons value rest, opts, path, index, hw, hs, hu => by
    rw [itemsContainUnsafeKey, Bool.or_eq_false_iff] at hu
    rw [itemsAllSerializable, Bool.and_eq_true] at hs
    cases hchild : scanConfigForSecurityViolations value opts
        (path ++ "[" ++ toString index ++ "]") with
    | error e =>
      have hf := scan_warn_ok_of_no_unsafe_key value opts (path ++ "[" ++ toString index ++ "]")
        hw hs.1 hu.1
      rw [hchild] at hf
      simp [scanFails] at hf
    | ok w1 =>
      cases hrestr : scanArrayItems rest opts path (index + 1) with
      | error e =>
        have hf := scanItems_warn_ok_of_no_unsafe_key rest opts path (index + 1) hw hs.2 hu.2
        rw [hrestr] at hf
        simp [scanFails] at hf
      | ok w2 => simp [scanArrayItems, hchild, hrestr, scanFails]
end

mutual
theorem scan_warn_unsafe_name : ∀ (v : ConfigValue) (opts : SecretScanOptions) (path : String),
    opts.mode = .warn → allLeavesSerializable v = true → containsUnsafeKey v = true →
    isUnsafeNameError (scanConfigForSecurityViolations v opts path) = true
  | .obj entries, opts, path, hw, hs, hu => by
    have he := scanEntries_warn_unsafe_name entries opts path hw
      (by simpa [allLeavesSerializable] using hs) (by simpa [containsUnsafeKey] using hu)
    simpa [scanConfigForSecurityViolations] using he
  | .arr items, opts, path, hw, hs, hu => by
    have hi := scanItems_warn_unsafe_name items opts path 0 hw
      (by simpa [allLeavesSerializable] using hs) (by simpa [containsUnsafeKey] using hu)
    simpa [scanConfigForSecurityViolations] using hi
  | .null, opts, path, hw, hs, hu => by simp [containsUnsafeKey] at hu
  | .bool b, opts, path, hw, hs, hu => by simp [containsUnsafeKey] at hu
  | .num n, opts, path, hw, hs, hu => by simp [containsUnsafeKey] at hu
  | .str s, opts, path, hw, hs, hu => by simp [containsUnsafeKey] at hu
  | .date d, opts, path, hw, hs, hu => by simp [containsUnsafeKey] at hu
  | .withToJSON, opts, path, hw, hs, hu => by simp [containsUnsafeKey] at hu
  | .other, opts, path, hw, hs, hu => by simp [containsUnsafeKey] at hu

theorem scanEntries_warn_unsafe_name : ∀ (entries : ConfigEntries) (opts : SecretScanOptions)
    (path : String), opts.mode = .warn → entriesAllSerializable entries = true →
    entriesContainUnsafeKey entries = true →
    isUnsafeNameError (scanObjectEntries entries opts path) = true
  | .cons key value rest, opts, path, hw, hs, hu => by
    rw [entriesAllSerializable, Bool.and_eq_true] at hs
    cases hk : PROHIBITED_PROPERTY_NAMES.contains key with
    | true =>
      have hmem : key ∈ PROHIBITED_PROPERTY_NAMES := by simpa using hk
      simp [scanObjectEntries, ensureSafePropertyName, hmem, isUnsafeNameError]
    | false =>
      have hmem : key ∉ PROHIBITED_PROPERTY_NAMES := by simpa using hk
      rw [entriesContainUnsafeKey, hk, Bool.false_or, Bool.or_eq_true] at hu
      cases hpol : enforceSecretPolicy key (childPath path key) opts with
      | error e => exact absurd hpol (enforceSecretPolicy_warn_no_error key _ opts hw e)
      | ok w1 =>
        cases hchild : scanConfigForSecurityViolations value opts (childPath path key) with
        | error e =>
          cases hub : containsUnsafeKey value with
          | true =>
            have hn := scan_warn_unsafe_name value opts (childPath path key) hw hs.1 hub
            rw [hchild] at hn
            simp [scanObjectEntries, ensureSafePropertyName, hmem, hpol, hchild]
            simpa [isUnsafeNameError] using hn
          | false =>
            have hf := scan_warn_ok_of_no_unsafe_key value opts (childPath path key) hw hs.1 hub
            rw [hchild] at hf
            simp [scanFails] at hf
        | ok w2 =>
          have hrestu : entriesContainUnsafeKey rest = true := by
            rcases hu with huv | hur
            · have hn := scan_warn_unsafe_name value opts (childPath path key) hw hs.1 huv
              rw [hchild] at hn
              simp [isUnsafeNameError] at hn
            · exact hur
          cases hrestr : scanObjectEntries rest opts path with
          | error e =>
            have hn := scanEntries_warn_unsafe_name rest opts path hw hs.2 hrestu
            rw [hrestr] at hn
            simp [scanObjectEntries, ensureSafePropertyName, hmem, hpol, hchild, hrestr]
            simpa [isUnsafeNameError] using hn
          | ok w3 =>
            have hn := scanEntries_warn_unsafe_name rest opts path hw hs.2 hrestu
            rw [hrestr] at hn
            simp [isUnsafeNameError] at hn

theorem scanItems_warn_unsafe_name : ∀ (items : ConfigItems) (opts : SecretScanOptions)
    (path : String) (index : Nat), opts.mode = .warn → itemsAllSerializable items = true →
    itemsContainUnsafeKey items = true →
    isUnsafeNameError (scanArrayItems items opts path index) = true
  | .cons value rest, opts, path, index, hw, hs, hu => by
    rw [itemsAllSerializable, Bool.and_eq_true] at hs
    rw [itemsContainUnsafeKey, Bool.or_eq_true] at hu
    cases hchild : scanConfigForSecurityViolations value opts
        (path ++ "[" ++ toString index ++ "]") with
    | error e =>
      cases hub : containsUnsafeKey value with
      | true =>
        have hn := scan_warn_unsafe_name value opts (path ++ "[" ++ toString index ++ "]")
          hw hs.1 hub
        rw [hchild] at hn
        simp [scanArrayItems, hchild]
        simpa [isUnsafeNameError] using hn
      | false =>
        have hf := scan_warn_ok_of_no_unsafe_key value opts (path ++ "[" ++ toString index ++ "]")
          hw hs.1 hub
        rw [hchild] at hf
        simp [scanFails] at hf
    | ok w1 =>
      have hrestu : itemsContainUnsafeKey rest = true := by
        rcases hu with huv | hur
        · have hn := scan_warn_unsafe_name value opts (path ++ "[" ++ toString index ++ "]")
            hw hs.1 huv
          rw [hchild] at hn
          simp [isUnsafeNameError] at hn
        · exact hur
      cases hrestr : scanArrayItems rest opts path (index + 1) with
      | error e =>
        have hn := scanItems_warn_unsafe_name rest opts path (index + 1) hw hs.2 hrestu
        rw [hrestr] at hn
        simp [scanArrayItems, hchild, hrestr]
        simpa [isUnsafeNameError] using hn
      | ok w2 =>
        have hn := scanItems_warn_unsafe_name rest opts path (index + 1) hw hs.2 hrestu
        rw [hrestr] at hn
        simp [isUnsafeNameError] at hn
end

/-- C6 counterexample: in `error` mode a blocked keyword earlier in
depth-first order preempts the unsafe-property-name error, so the thrown
violation is not an unsafe-property-name error. -/
theorem unsafe_key_preempted_counterexample :
    containsUnsafeKey (.obj (.cons "password" .null (.cons "__proto__" .null .nil))) = true ∧
    scanConfigForSecurityViolations (.obj (.cons "password" .null (.cons "__proto__" .null .nil)))
        (normalizeSecretOptions none) "custom" =
      .error (.blockedKeyword "custom.password" "password") ∧
    isUnsafeNameError (scanConfigForSecurityViolations
        (.obj (.cons "password" .null (.cons "__proto__" .null .nil)))
        (normalizeSecretOptions none) "custom") = false :=
  ⟨by decide, rfl, by decide⟩

/-- C6 amended: a prohibited key anywhere makes the scanner throw, in
both modes and regardless of blocklist and allow-list contents; and in
`warn` mode, when every leaf is serializable, the thrown error is
precisely the unsafe-property-name violation (in `error` mode an earlier
blocked-keyword or unsupported-value violation may preempt it). -/
theorem scan_always_fails_on_unsafe_key
    (v : ConfigValue) (opts : SecretScanOptions) (path : String)
    (hu : containsUnsafeKey v = true) :
    scanFails (scanConfigForSecurityViolations v opts path) = true ∧
    (opts.mode = .warn → allLeavesSerializable v = true →
      isUnsafeNameError (scanConfigForSecurityViolations v opts path) = true) :=
  ⟨scan_fails_of_unsafe_key v opts path hu,
    fun hw hs => scan_warn_unsafe_name v opts path hw hs hu⟩

/-- C6 amended witness -/
theorem scan_always_fails_on_unsafe_key_witness :
    scanFails (scanConfigForSecurityViolations (.obj (.cons "__proto__" .null .nil))
        (normalizeSecretOptions (some { mode := some .warn })) "custom") = true ∧
    isUnsafeNameError (scanConfigForSecurityViolations (.obj (.cons "__proto__" .null .nil))
        (normalizeSecretOptions (some { mode := some .warn })) "custom") = true :=
  ⟨(scan_always_fails_on_unsafe_key (.obj (.cons "__proto__" .null .nil))
      (normalizeSecretOptions (some { mode := some .warn })) "custom" (by decide)).1,
    (scan_always_fails_on_unsafe_key (.obj (.cons "__proto__" .null .nil))
      (normalizeSecretOptions (some { mode := some .warn })) "custom" (by decide)).2
      rfl (by decide)⟩

/-- C7 counterexample: a tree with no blocklist-matching key is still
rejected when it carries a non-serializable leaf (here a function-like
value under the key `myFunc`). -/
theorem scanner_rejects_unsupported_leaf_counterexample :
    hasBlockedKey (normalizeSecretOptions none).blocklist
      (.obj (.cons "myFunc" .other .nil)) = false ∧
    scanConfigForSecurityViolations (.obj (.cons "myFunc" .other .nil))
      (normalizeSecretOptions none) "custom" = .error (.unsupportedValue "custom.myFunc") :=
  ⟨by decide, rfl⟩

/-- C7 amended: a tree with no blocklist-matching keys, no prohibited
property names and only serializable leaves passes the scan without
throwing and without a warning. -/
theorem scan_passes_on_clean_tree
    (v : ConfigValue) (opts : SecretScanOptions) (path : String)
    (hb : hasBlockedKey opts.blocklist v = false)
    (hu : containsUnsafeKey v = false)
    (hs : allLeavesSerializable v = true) :
    scanConfigForSecurityViolations v opts path = .ok [] :=
  scan_ok_of_clean v opts path hb hu hs

/-- C7 amended witness -/
theorem scan_passes_on_clean_tree_witness :
    scanConfigForSecurityViolations
        (.obj (.cons "safe" (.str "v") (.cons "nested" (.obj (.cons "flag" (.bool true) .nil))
          (.cons "items" (.arr (.cons (.num 1) .nil)) .nil))))
        (normalizeSecretOptions none) "custom" = .ok [] :=
  scan_passes_on_clean_tree
    (.obj (.cons "safe" (.str "v") (.cons "nested" (.obj (.cons "flag" (.bool true) .nil))
      (.cons "items" (.arr (.cons (.num 1) .nil)) .nil))))
    (normalizeSecretOptions none) "custom" (by decide) (by decide) (by decide)

/-- Modelled from the spec: the claim's audience normalization, under
which a bare string always becomes a one-element set (no exception for
the empty string) — stated for comparison with the code's
`expectedAudienceList`/`payloadAudienceList`. -/
def specNormalizedAudience : Option AudClaim → List String
  | some (.str s) => [s]
  | some (.arr l) => l
  | none => []

/-- C8 counterexample: expected audience `[""]` and payload `aud = ""`.
Under the claim's normalization the two sets both contain `""` and share
an element, so the check should pass; the code treats the bare empty
string as falsy, normalizes it to the empty set, and rejects. -/
theorem validateJwtClaims_audience_counterexample :
    (specNormalizedAudience (some (.arr [""]))).any
      (fun aud => (specNormalizedAudience (some (.str ""))).contains aud) = true ∧
    validateJwtClaims { aud := some (.str "") } { audience := some (.arr [""]) } 0 =
      .error .audienceMismatch :=
  ⟨by decide, rfl⟩

/-- C8 amended: with the other claim checks disabled and a truthy
audience option, the check passes exactly when the code's normalized
lists overlap; the code's normalization agrees with the claim's except
that a bare empty-string payload `aud` is treated as absent (and an
empty-string expected audience disables the check). The claim's two
concrete examples hold. -/
theorem validateJwtClaims_audience_overlap
    (payload : JsonObj) (opts : JwtSecurityOptions) (now : Int)
    (hexp : payload.exp = none) (hnbf : payload.nbf = none) (hiat : payload.iat = none)
    (hiss : opts.issuer = none) (hsub : opts.subject = none)
    (haud : jsTruthyAud opts.audience = true) :
    (validateJwtClaims payload opts now = .ok () ↔
      (expectedAudienceList opts.audience).any
        (fun aud => (payloadAudienceList payload.aud).contains aud) = true) ∧
    validateJwtClaims { aud := some (.arr ["a", "b"]) } { audience := some (.str "b") } 0 =
      .ok () ∧
    validateJwtClaims { aud := some (.arr ["a", "b"]) } { audience := some (.str "c") } 0 =
      .error .audienceMismatch := by
  refine ⟨?_, rfl, rfl⟩
  simp only [validateJwtClaims, hexp, hnbf, hiat, hiss, hsub, haud, if_true]
  cases hany : (expectedAudienceList opts.audience).any
      (fun aud => (payloadAudienceList payload.aud).contains aud) <;>
    simp [hany]

/-- C8 amended witness -/
theorem validateJwtClaims_audience_overlap_witness :
    (validateJwtClaims { aud := some (.arr ["a", "b"]) } { audience := some (.str "b") } 0 =
        .ok () ↔
      (expectedAudienceList (some (.str "b"))).any
        (fun aud => (payloadAudienceList (some (.arr ["a", "b"]))).contains aud) = true) :=
  (validateJwtClaims_audience_overlap { aud := some (.arr ["a", "b"]) }
    { audience := some (.str "b") } 0 rfl rfl rfl rfl rfl (by decide)).1

/-- C9: the gate always runs the scanner at path prefix `custom` (any
scan throw aborts with it; a blocked key at the root is reported at
`custom.<key>` with the message naming that path, and is suppressed by
the allow-list entry `custom.<key>`); when the scan passes, the verifier
runs exactly when `jwt.required` is true or the resolved token is
truthy, and otherwise the gate returns nothing. -/
theorem enforceSecurityOnConfig_gate
    (ext : JsExt) (env : Env) (config : ConfigValue) (secOpts : SecurityOptions) (now : Int) :
    (∀ e, scanConfigForSecurityViolations config (normalizeSecretOptions secOpts.secrets)
        "custom" = .error e →
      enforceSecurityOnConfig ext env config secOpts now = .error (.scanViolation e)) ∧
    (∀ ws, scanConfigForSecurityViolations config (normalizeSecretOptions secOpts.secrets)
        "custom" = .ok ws →
      (shouldValidateJwt env secOpts = false →
        enforceSecurityOnConfig ext env config secOpts now = .ok (ws, none)) ∧
      (shouldValidateJwt env secOpts = true →
        enforceSecurityOnConfig ext env config secOpts now =
          match verifyJwtToken ext env (secOpts.jwt.getD {}) now with
          | .error e => .error (.jwtFailure e)
          | .ok result => .ok (ws, some result))) ∧
    enforceSecurityOnConfig ext env (.obj (.cons "apiSecret" (.str "x") .nil)) {} now =
      .error (.scanViolation (.blockedKeyword "custom.apiSecret" "secret")) ∧
    (ScanError.blockedKeyword "custom.apiSecret" "secret").message =
      "Config property \"custom.apiSecret\" matched blocked keyword \"secret\". If this property intentionally carries a secret, list it under security.secrets.allowList." ∧
    scanConfigForSecurityViolations (.obj (.cons "apiSecret" (.str "x") .nil))
      (normalizeSecretOptions (some { allowList := some ["custom.apiSecret"] })) "custom" =
      .ok [] := by
  refine ⟨?_, ?_, rfl, rfl, rfl⟩
  · intro e hscan
    simp [enforceSecurityOnConfig, hscan]
  · intro ws hscan
    constructor
    · intro hno
      simp [enforceSecurityOnConfig, hscan, hno]
    · intro hyes
      simp only [enforceSecurityOnConfig, hscan, hyes, Bool.not_true, Bool.false_eq_true,
        if_false]

/-- C9 witness -/
theorem enforceSecurityOnConfig_gate_witness :
    enforceSecurityOnConfig extStub32 emptyEnv (.obj (.cons "apiSecret" (.str "x") .nil))
        {} 0 = .error (.scanViolation (.blockedKeyword "custom.apiSecret" "secret")) ∧
    enforceSecurityOnConfig extStub32 emptyEnv (.obj (.cons "ok" (.str "x") .nil)) {} 0 =
      .ok ([], none) :=
  ⟨(enforceSecurityOnConfig_gate extStub32 emptyEnv (.obj (.cons "apiSecret" (.str "x") .nil))
      {} 0).1 (.blockedKeyword "custom.apiSecret" "secret") rfl,
    ((enforceSecurityOnConfig_gate extStub32 emptyEnv (.obj (.cons "ok" (.str "x") .nil))
      {} 0).2.1 [] rfl).1 rfl⟩
